import Mathlib

/-!
Shallow embedding of the file-based testing framework
(`src/test_framework.py`): the test-case data model, the section parser
(`TestParser._parse_test_section`, `TestParser.parse_file` restricted to the
text it reads), the comparator (`TestRunner._compare_output`), command
construction (`TestRunner._execute_command`), and the run wrapper
(`TestRunner.run_test`).

Python standard-library behaviour used by the source is modelled explicitly:
`str.strip`, `str.split`, `str.replace`, `str.startswith`, `json.loads`
(restricted to the JSON fragment with integer numerals), and `re.search`
(restricted to the regex fragment with literals, `.`, escapes, grouping,
alternation and the `*`/`+`/`?` quantifiers; the validity errors modelled —
unbalanced parentheses, a quantifier with nothing to repeat, multiple
repeat, trailing backslash — are exactly errors CPython's `re` also raises,
with CPython's message texts).

Execution of the external command (`subprocess.run`) is an effect: it is
passed to the runner model as an explicit outcome, either captured stdout or
one of the three exception kinds the specification names (launch failure,
timeout, decode failure), rendered to `str(e)` messages in CPython's formats.
`execution_time` (wall-clock float) is outside the model.
-/

namespace FileTest

/-! ## Python string primitives -/

/-- The whitespace characters stripped by Python's `str.strip()`
(ASCII subset; the source only feeds it ASCII-whitespace-delimited text). -/
def pyIsSpace (c : Char) : Bool :=
  c = ' ' || c = '\t' || c = '\n' || c = '\r' || c = '\x0b' || c = '\x0c'

/-- Python `s.strip()`: drop leading and trailing whitespace. -/
def pyStrip (s : String) : String :=
  ⟨((s.data.dropWhile pyIsSpace).reverse.dropWhile pyIsSpace).reverse⟩

/-- Python `s.startswith(pre)` on character lists. -/
def listStartsWith : List Char → List Char → Bool
  | [], _ => true
  | _ :: _, [] => false
  | p :: ps, c :: cs => p == c && listStartsWith ps cs

/-- Python `s.startswith(pre)`. -/
def pyStartsWith (s pre : String) : Bool :=
  listStartsWith pre.data s.data

/-- Python `needle in haystack` (substring test) on character lists. -/
def listContainsSub (needle : List Char) : List Char → Bool
  | [] => listStartsWith needle []
  | c :: rest => listStartsWith needle (c :: rest) || listContainsSub needle rest

/-- Python `needle in haystack` (substring test) on strings. -/
def pyInStr (needle haystack : String) : Bool :=
  listContainsSub needle.data haystack.data

/-- Python `s[n:]` (by code points). -/
def pyDrop (s : String) (n : Nat) : String :=
  ⟨s.data.drop n⟩

/-- Python `s.lower()` (ASCII case mapping; the source only lower-cases
`TYPE:` values). -/
def pyLower (s : String) : String :=
  ⟨s.data.map Char.toLower⟩

/-- Python `s.split(sep)` for non-empty `sep`, on character lists: scan
left to right, cutting at each non-overlapping occurrence.  The fuel is
the input length; one unit per consumed character suffices (on
exhaustion — never reached from `pySplit` — the rest joins the last
piece). -/
def pySplitFuel (sep : List Char) : Nat → List Char → List Char → List (List Char)
  | 0, acc, s => [acc.reverse ++ s]
  | _ + 1, acc, [] => [acc.reverse]
  | fuel + 1, acc, c :: rest =>
    if listStartsWith sep (c :: rest) then
      acc.reverse :: pySplitFuel sep fuel [] (List.drop sep.length (c :: rest))
    else
      pySplitFuel sep fuel (c :: acc) rest

/-- Python `s.split(sep)` for the non-empty separators the source uses
(`'\n'`, `','` and `'### TEST:'`). -/
def pySplit (s sep : String) : List String :=
  (pySplitFuel sep.data s.data.length [] s.data).map (fun l => ⟨l⟩)

/-- Python `sep.join(parts)`. -/
def pyJoin (sep : String) : List String → String
  | [] => ""
  | [s] => s
  | s :: rest => s ++ sep ++ pyJoin sep rest

/-! ## Data model (`TestCase`, `TestResult` dataclasses) -/

/-- `TestCase` dataclass of `test_framework.py` (the float-free fields). -/
structure TestCase where
  name : String
  description : String
  input_data : String
  expected_output : String
  test_type : String := "exact"
  file_path : String := ""
  line_number : Nat := 0
  tags : List String := []
deriving DecidableEq, Repr

/-- `TestResult` dataclass of `test_framework.py`; `execution_time` (a float)
is outside the model. -/
structure TestResult where
  test_case : TestCase
  passed : Bool
  actual_output : String
  error_message : String := ""
deriving DecidableEq, Repr

/-! ## Parser (`TestParser._parse_test_section`) -/

/-- The three buffer-owning states of the line state machine; Python's
`current_block` is `None` or one of the strings `'description'`, `'input'`,
`'expected'`, modelled as `Option Field`. -/
inductive Field where
  | description
  | input
  | expected
deriving DecidableEq, Repr

/-- The mutable locals of `_parse_test_section` while scanning lines. -/
structure SectionAcc where
  description : String
  input_data : String
  expected_output : String
  test_type : String
  tags : List String
  current_block : Option Field
  block_content : List String
deriving DecidableEq, Repr

/-- Initial locals of `_parse_test_section` (before the line loop). -/
def initAcc : SectionAcc :=
  { description := "", input_data := "", expected_output := "",
    test_type := "exact", tags := [], current_block := none,
    block_content := [] }

/-- The repeated "Save previous block" code of `_parse_test_section`:
join the buffered lines with newline, strip, and store into the field owned
by the current state. -/
def flushBlock (acc : SectionAcc) : SectionAcc :=
  match acc.current_block with
  | some .description =>
      { acc with description := pyStrip (pyJoin "\n" acc.block_content) }
  | some .input =>
      { acc with input_data := pyStrip (pyJoin "\n" acc.block_content) }
  | some .expected =>
      { acc with expected_output := pyStrip (pyJoin "\n" acc.block_content) }
  | none => acc

/-- One iteration of the `for line in lines[1:]` loop of
`_parse_test_section`. -/
def processLine (acc : SectionAcc) (line : String) : SectionAcc :=
  let stripped := pyStrip line
  if pyStartsWith stripped "DESCRIPTION:" then
    let acc := flushBlock acc
    let desc_value := pyStrip (pyDrop stripped 12)
    { acc with current_block := some .description,
               block_content := if desc_value ≠ "" then [desc_value] else [] }
  else if pyStartsWith stripped "INPUT:" then
    let acc := flushBlock acc
    let input_value := pyStrip (pyDrop stripped 6)
    { acc with current_block := some .input,
               block_content := if input_value ≠ "" then [input_value] else [] }
  else if pyStartsWith stripped "EXPECTED:" then
    let acc := flushBlock acc
    let expected_value := pyStrip (pyDrop stripped 9)
    { acc with current_block := some .expected,
               block_content := if expected_value ≠ "" then [expected_value] else [] }
  else if pyStartsWith stripped "TYPE:" then
    { acc with test_type := pyLower (pyStrip (pyDrop stripped 5)) }
  else if pyStartsWith stripped "TAGS:" then
    { acc with tags := (pySplit (pyDrop stripped 5) ",").map pyStrip }
  else if stripped ≠ "" then
    match acc.current_block with
    | some _ => { acc with block_content := acc.block_content ++ [stripped] }
    | none => acc
  else
    acc

/-- `TestParser._parse_test_section`: strip the section, split into lines,
take the first line (stripped) as the name, run the state machine over the
remaining lines, flush the last block, and build the `TestCase`.  The
`match` on the empty line list mirrors the Python `if not lines: return
None` guard (which, like it, can never fire: `str.split` never returns an
empty list). -/
def parseTestSection (sectionText : String) (file_path : String) : Option TestCase :=
  match pySplit (pyStrip sectionText) "\n" with
  | [] => none
  | nameLine :: rest =>
    let name := pyStrip nameLine
    let acc := flushBlock (rest.foldl processLine initAcc)
    some { name := name, description := acc.description,
           input_data := acc.input_data,
           expected_output := acc.expected_output,
           test_type := acc.test_type, file_path := file_path,
           line_number := 0, tags := acc.tags }

/-- `TestParser.parse_file` on the text it reads: split the content on the
section delimiter, drop the text before the first delimiter, parse each
segment, and keep the truthy results (a returned `TestCase` object is always
truthy in Python, so only `None` is dropped — `filterMap` models exactly
that). -/
def parseFileContent (content : String) (file_path : String) : List TestCase :=
  ((pySplit content "### TEST:").drop 1).filterMap
    (fun s => parseTestSection s file_path)

/-! ## Regex model (`re.search`, fragment)

`re.search(expected, actual)` in `_compare_output` first compiles the
pattern, raising `re.error` on an invalid one.  The fragment modelled here
has literals, `.`, escaped characters, grouping, alternation and the
`*`/`+`/`?` quantifiers with an optional lazy `?` marker; the validity
errors it reports (with CPython's message texts and positions) are ones
CPython's `re` also reports: a stray `)`, an unterminated `(`, a quantifier
with nothing to repeat, a doubled quantifier, and a trailing backslash. -/

/-- Regular expressions (syntax after compilation). -/
inductive RE where
  | emp
  | eps
  | chr (c : Char)
  | anyc
  | alt (a b : RE)
  | cat (a b : RE)
  | star (a : RE)
deriving DecidableEq, Repr

/-- The pattern-compilation errors of the modelled fragment. -/
inductive ReErr where
  | unbalanced (pos : Nat)
  | missingParen (pos : Nat)
  | nothingToRepeat (pos : Nat)
  | multipleRepeat (pos : Nat)
  | badEscape (pos : Nat)
deriving DecidableEq, Repr

/-- `str(e)` for the modelled `re.error` values, in CPython's formats. -/
def reErrMessage : ReErr → String
  | .unbalanced p => "unbalanced parenthesis at position " ++ toString p
  | .missingParen p => "missing ), unterminated subpattern at position " ++ toString p
  | .nothingToRepeat p => "nothing to repeat at position " ++ toString p
  | .multipleRepeat p => "multiple repeat at position " ++ toString p
  | .badEscape p => "bad escape (end of pattern) at position " ++ toString p

/-- `a+` as `a · a*`. -/
def rePlus (r : RE) : RE := .cat r (.star r)

/-- `a?` as `ε | a`. -/
def reOpt (r : RE) : RE := .alt .eps r

/-- State of the iterative pattern parser: a stack of enclosing groups
(each with its finished alternatives, its sequence prefix, and the position
of its `(`), the finished alternatives of the current level, the current
sequence without its last atom, the last atom (the quantifier target), and
whether a quantifier (resp. quantifier plus lazy marker) was just applied. -/
structure ReParseSt where
  stack : List (List RE × RE × Nat)
  alts : List RE
  seqAcc : RE
  last : Option RE
  afterQuant : Bool
  afterLazy : Bool

/-- Fold the pending last atom into the sequence accumulator. -/
def reFoldLast (st : ReParseSt) : RE :=
  match st.last with
  | some a => .cat st.seqAcc a
  | none => st.seqAcc

/-- Start a fresh atom: fold the previous one and clear quantifier flags. -/
def rePushAtom (st : ReParseSt) (a : RE) : ReParseSt :=
  { st with seqAcc := reFoldLast st, last := some a,
            afterQuant := false, afterLazy := false }

/-- Fold a non-empty list of alternatives into one `RE`. -/
def reAltFold : List RE → RE
  | [] => .eps
  | a :: rest => rest.foldl RE.alt a

/-- One-pass pattern parser over the characters, with explicit group
stack. -/
def reParseChars : List Char → Nat → ReParseSt → Except ReErr RE
  | [], _, st =>
    match st.stack with
    | (_, _, opos) :: _ => .error (.missingParen opos)
    | [] => .ok (reAltFold (st.alts ++ [reFoldLast st]))
  | '\\' :: rest, pos, st =>
    match rest with
    | [] => .error (.badEscape pos)
    | c :: rest2 => reParseChars rest2 (pos + 2) (rePushAtom st (.chr c))
  | '(' :: rest, pos, st =>
    reParseChars rest (pos + 1)
      { stack := (st.alts, reFoldLast st, pos) :: st.stack,
        alts := [], seqAcc := .eps, last := none,
        afterQuant := false, afterLazy := false }
  | ')' :: rest, pos, st =>
    match st.stack with
    | [] => .error (.unbalanced pos)
    | (palts, pseq, _) :: stk =>
      let r := reAltFold (st.alts ++ [reFoldLast st])
      reParseChars rest (pos + 1)
        { stack := stk, alts := palts, seqAcc := pseq, last := some r,
          afterQuant := false, afterLazy := false }
  | '|' :: rest, pos, st =>
    reParseChars rest (pos + 1)
      { st with alts := st.alts ++ [reFoldLast st], seqAcc := .eps,
                last := none, afterQuant := false, afterLazy := false }
  | '.' :: rest, pos, st =>
    reParseChars rest (pos + 1) (rePushAtom st .anyc)
  | c :: rest, pos, st =>
    if c = '*' || c = '+' || c = '?' then
      if st.afterLazy then .error (.multipleRepeat pos)
      else if st.afterQuant then
        if c = '?' then
          reParseChars rest (pos + 1)
            { st with afterQuant := false, afterLazy := true }
        else .error (.multipleRepeat pos)
      else
        match st.last with
        | none => .error (.nothingToRepeat pos)
        | some a =>
          let w := if c = '*' then RE.star a
                   else if c = '+' then rePlus a else reOpt a
          reParseChars rest (pos + 1) { st with last := some w, afterQuant := true }
    else
      reParseChars rest (pos + 1) (rePushAtom st (.chr c))

/-- Compile a pattern string, `re.compile` of the fragment. -/
def reCompile (pattern : String) : Except ReErr RE :=
  reParseChars pattern.data 0
    { stack := [], alts := [], seqAcc := .eps, last := none,
      afterQuant := false, afterLazy := false }

/-- Does `r` accept the empty word? -/
def reNullable : RE → Bool
  | .emp => false
  | .eps => true
  | .chr _ => false
  | .anyc => false
  | .alt a b => reNullable a || reNullable b
  | .cat a b => reNullable a && reNullable b
  | .star _ => true

/-- Brzozowski derivative; `.` does not match a newline, as in Python. -/
def reDeriv : RE → Char → RE
  | .emp, _ => .emp
  | .eps, _ => .emp
  | .chr c, d => if c == d then .eps else .emp
  | .anyc, d => if d == '\n' then .emp else .eps
  | .alt a b, d => .alt (reDeriv a d) (reDeriv b d)
  | .cat a b, d =>
    if reNullable a then .alt (.cat (reDeriv a d) b) (reDeriv b d)
    else .cat (reDeriv a d) b
  | .star a, d => .cat (reDeriv a d) (.star a)

/-- Does `r` match some prefix of the word? -/
def reMatchesSomePrefix : RE → List Char → Bool
  | r, [] => reNullable r
  | r, c :: rest => reNullable r || reMatchesSomePrefix (reDeriv r c) rest

/-- `re.search`: does `r` match somewhere inside the word? -/
def reSearch : RE → List Char → Bool
  | r, [] => reMatchesSomePrefix r []
  | r, c :: rest => reMatchesSomePrefix r (c :: rest) || reSearch r rest

/-! ## JSON model (`json.loads`, fragment with integer numerals)

`_compare_output` in `json` mode calls `json.loads` on both strings and
compares the resulting Python values with `==`.  The grammar modelled is
JSON with `null`, booleans, integer numerals (no leading zeros, optional
sign), strings with the standard escapes, arrays and objects; the value
equality is Python `==`, under which `True == 1` and `False == 0`, dict
comparison ignores key order, and list comparison is positional. -/

/-- Parsed JSON values.  Objects are kept as association lists with unique
keys: `json.loads` builds a `dict`, so a later duplicate key overwrites an
earlier one at parse time. -/
inductive JVal where
  | jnull
  | jbool (b : Bool)
  | jint (n : Int)
  | jstr (s : String)
  | jarr (elems : List JVal)
  | jobj (fields : List (String × JVal))

/-- JSON insignificant whitespace (`json.decoder`: space, tab, newline,
carriage return). -/
def jsonWs (s : List Char) : List Char :=
  s.dropWhile (fun c => c = ' ' || c = '\t' || c = '\n' || c = '\r')

/-- `dict.__setitem__` while parsing an object: a repeated key overwrites
the earlier binding, otherwise the binding is appended. -/
def jobjInsert (k : String) (v : JVal) : List (String × JVal) → List (String × JVal)
  | [] => [(k, v)]
  | (k2, v2) :: rest =>
    if k = k2 then (k2, v) :: rest else (k2, v2) :: jobjInsert k v rest

/-- Decimal digits of an integer numeral (first char already checked). -/
def jsonDigits : List Char → Option (Nat × List Char)
  | [] => none
  | c :: rest =>
    if c.isDigit then
      match jsonDigits rest with
      | some (n, r) =>
        -- fold the remaining digits onto this one
        some ((c.toNat - '0'.toNat) * 10 ^ (rest.length - r.length) + n, r)
      | none => some (c.toNat - '0'.toNat, rest)
    else none

/-- Integer numeral: optional `-`, then `0` or a nonzero digit followed by
digits (the `NUMBER_RE` of `json.decoder`, restricted to the integer part;
a fractional or exponent part is outside the modelled fragment). -/
def jsonParseInt (s : List Char) : Option (JVal × List Char) :=
  let core : List Char → Option (Int × List Char) := fun t =>
    match t with
    | '0' :: rest => some (0, rest)
    | c :: _ =>
      if c.isDigit then
        match jsonDigits t with
        | some (n, r) => some ((n : Int), r)
        | none => none
      else none
    | [] => none
  match s with
  | '-' :: rest =>
    match core rest with
    | some (n, r) => some (.jint (-n), r)
    | none => none
  | _ =>
    match core s with
    | some (n, r) => some (.jint n, r)
    | none => none

/-- Hex digit value. -/
def hexVal (c : Char) : Option Nat :=
  if '0' ≤ c ∧ c ≤ '9' then some (c.toNat - '0'.toNat)
  else if 'a' ≤ c ∧ c ≤ 'f' then some (c.toNat - 'a'.toNat + 10)
  else if 'A' ≤ c ∧ c ≤ 'F' then some (c.toNat - 'A'.toNat + 10)
  else none

/-- JSON string body after the opening quote: standard escapes, `\uXXXX`,
and a ban on unescaped control characters (strict mode of `json.loads`). -/
def jsonParseStr : List Char → Option (String × List Char)
  | [] => none
  | '"' :: rest => some ("", rest)
  | '\\' :: e :: rest =>
    let simple : Option Char :=
      if e = '"' then some '"'
      else if e = '\\' then some '\\'
      else if e = '/' then some '/'
      else if e = 'b' then some '\x08'
      else if e = 'f' then some '\x0c'
      else if e = 'n' then some '\n'
      else if e = 'r' then some '\r'
      else if e = 't' then some '\t'
      else none
    match simple with
    | some c =>
      match jsonParseStr rest with
      | some (s, r) => some (⟨c :: s.data⟩, r)
      | none => none
    | none =>
      if e = 'u' then
        match rest with
        | h1 :: h2 :: h3 :: h4 :: rest2 =>
          match hexVal h1, hexVal h2, hexVal h3, hexVal h4 with
          | some a, some b, some c, some d =>
            let n := ((a * 16 + b) * 16 + c) * 16 + d
            if n < 1114112 then
              match jsonParseStr rest2 with
              | some (s, r) => some (⟨Char.ofNat n :: s.data⟩, r)
              | none => none
            else none
          | _, _, _, _ => none
        | _ => none
      else none
  | c :: rest =>
    if c.toNat < 32 then none
    else
      match jsonParseStr rest with
      | some (s, r) => some (⟨c :: s.data⟩, r)
      | none => none

mutual

/-- Parse one JSON value (fuel-driven recursive descent). -/
def jsonParseVal : Nat → List Char → Option (JVal × List Char)
  | 0, _ => none
  | fuel + 1, s =>
    match jsonWs s with
    | 'n' :: 'u' :: 'l' :: 'l' :: rest => some (.jnull, rest)
    | 't' :: 'r' :: 'u' :: 'e' :: rest => some (.jbool true, rest)
    | 'f' :: 'a' :: 'l' :: 's' :: 'e' :: rest => some (.jbool false, rest)
    | '"' :: rest =>
      match jsonParseStr rest with
      | some (str, r) => some (.jstr str, r)
      | none => none
    | '[' :: rest =>
      match jsonWs rest with
      | ']' :: r2 => some (.jarr [], r2)
      | r => jsonParseArrItems fuel r []
    | '{' :: rest =>
      match jsonWs rest with
      | '}' :: r2 => some (.jobj [], r2)
      | r => jsonParseObjItems fuel r []
    | t => jsonParseInt t

/-- Parse the elements of a non-empty array, after `[`. -/
def jsonParseArrItems : Nat → List Char → List JVal → Option (JVal × List Char)
  | 0, _, _ => none
  | fuel + 1, s, acc =>
    match jsonParseVal fuel s with
    | some (v, r) =>
      match jsonWs r with
      | ',' :: r2 => jsonParseArrItems fuel r2 (acc ++ [v])
      | ']' :: r2 => some (.jarr (acc ++ [v]), r2)
      | _ => none
    | none => none

/-- Parse the members of a non-empty object, after `{`. -/
def jsonParseObjItems : Nat → List Char → List (String × JVal) →
    Option (JVal × List Char)
  | 0, _, _ => none
  | fuel + 1, s, acc =>
    match jsonWs s with
    | '"' :: rest =>
      match jsonParseStr rest with
      | some (k, r) =>
        match jsonWs r with
        | ':' :: r2 =>
          match jsonParseVal fuel r2 with
          | some (v, r3) =>
            match jsonWs r3 with
            | ',' :: r4 => jsonParseObjItems fuel r4 (jobjInsert k v acc)
            | '}' :: r4 => some (.jobj (jobjInsert k v acc), r4)
            | _ => none
          | none => none
        | _ => none
      | none => none
    | _ => none

end

/-- `json.loads`: parse a whole document, requiring only trailing
whitespace after the value (otherwise `Extra data`, a decode error). -/
def jsonLoads (s : String) : Option JVal :=
  match jsonParseVal (s.data.length + 1) s.data with
  | some (v, rest) =>
    match jsonWs rest with
    | [] => some v
    | _ :: _ => none
  | none => none

/-- Association-list lookup, `k in d` plus `d[k]` of a Python dict. -/
def jobjLookup (k : String) : List (String × JVal) → Option JVal
  | [] => none
  | (k2, v) :: rest => if k = k2 then some v else jobjLookup k rest

mutual

/-- Python `==` on parsed JSON values.  `True == 1` and `False == 0` hold
in Python; dict equality is same size plus key-wise value equality (order
irrelevant, keys unique after parsing), list equality is positional. -/
def pyJsonEq : JVal → JVal → Bool
  | .jnull, .jnull => true
  | .jbool x, .jbool y => x == y
  | .jbool x, .jint n => n == (if x then (1 : Int) else 0)
  | .jint n, .jbool x => n == (if x then (1 : Int) else 0)
  | .jint m, .jint n => m == n
  | .jstr s, .jstr t => s == t
  | .jarr xs, .jarr ys => pyJsonEqList xs ys
  | .jobj xs, .jobj ys => xs.length == ys.length && pyJsonObjSub xs ys
  | _, _ => false

/-- Python `==` on lists of parsed JSON values (positional). -/
def pyJsonEqList : List JVal → List JVal → Bool
  | [], [] => true
  | a :: as, b :: bs => pyJsonEq a b && pyJsonEqList as bs
  | _, _ => false

/-- Every binding on the left is present (by key) with an equal value on
the right; with equal sizes and unique keys this is Python dict equality. -/
def pyJsonObjSub : List (String × JVal) → List (String × JVal) → Bool
  | [], _ => true
  | (k, v) :: rest, ys =>
    (match jobjLookup k ys with
     | some w => pyJsonEq v w
     | none => false) && pyJsonObjSub rest ys

end

/-! ## Comparator (`TestRunner._compare_output`) -/

/-- `TestRunner._compare_output`.  The `exact`, `contains`, `json` and
fallback branches return a boolean; the `regex` branch may raise `re.error`
(an invalid pattern), modelled as the `Except` error.  The `json` branch
catches only `JSONDecodeError`, turning a parse failure on either side into
`False`. -/
def compareOutput (expected actual test_type : String) : Except ReErr Bool :=
  let expected := pyStrip expected
  let actual := pyStrip actual
  if test_type = "exact" then
    .ok (expected == actual)
  else if test_type = "contains" then
    .ok (pyInStr expected actual)
  else if test_type = "regex" then
    match reCompile expected with
    | .error e => .error e
    | .ok r => .ok (reSearch r actual.data)
  else if test_type = "json" then
    .ok (match jsonLoads expected, jsonLoads actual with
         | some ej, some aj => pyJsonEq ej aj
         | _, _ => false)
  else
    .ok (expected == actual)

/-! ## Command construction and the runner
(`TestRunner._execute_command`, `TestRunner.run_test`) -/

/-- Python `s.replace(pat, rep)` (non-empty `pat`): scan left to right,
replacing each non-overlapping occurrence.  The fuel is the input length;
one unit per consumed character suffices because every step consumes at
least one character when `pat` is non-empty (on fuel exhaustion — never
reached from `pyReplace` — the rest is returned unchanged). -/
def pyReplaceFuel (pat rep : List Char) : Nat → List Char → List Char
  | 0, s => s
  | _ + 1, [] => []
  | fuel + 1, c :: rest =>
    if listStartsWith pat (c :: rest) then
      rep ++ pyReplaceFuel pat rep fuel ((c :: rest).drop pat.length)
    else
      c :: pyReplaceFuel pat rep fuel rest

/-- Python `s.replace(pat, rep)` for the non-empty patterns the source
uses (`'"'` and `'{input}'`). -/
def pyReplace (s pat rep : String) : String :=
  ⟨pyReplaceFuel pat.data rep.data s.data.length s.data⟩

/-- The command line built by `TestRunner._execute_command`: double every
embedded `"` in the input, wrap the whole value in `"` and substitute it
for the `{input}` placeholder of the template. -/
def buildCommand (command_template input_data : String) : String :=
  let escaped_input := pyReplace input_data "\"" "\"\""
  pyReplace command_template "{input}" ("\"" ++ escaped_input ++ "\"")

/-- The three execution-failure kinds of the specification's taxonomy, as
raised inside `_execute_command` (`subprocess.run(..., text=True,
timeout=30)`): the process could not be started (`OSError`), the timeout
expired (`subprocess.TimeoutExpired`), or the output could not be decoded
(`UnicodeDecodeError`). -/
inductive ExecError where
  | launchFailure (errno : Nat) (strerror : String)
  | timeout (cmd : String) (seconds : Nat)
  | decodeFailure (detail : String)
deriving DecidableEq, Repr

/-- `str(e)` for the three execution-failure kinds, following CPython's
formats (CPython additionally wraps the command and the codec name of the
latter two messages in single-quote characters, omitted here; each message
keeps its non-empty fixed prefix identifying which case occurred). -/
def execErrorMessage : ExecError → String
  | .launchFailure errno strerror =>
      "[Errno " ++ toString errno ++ "] " ++ strerror
  | .timeout cmd seconds =>
      "Command " ++ cmd ++ " timed out after " ++ toString seconds ++ " seconds"
  | .decodeFailure detail =>
      "utf-8 codec cant decode " ++ detail

/-- `TestRunner.run_test` given the outcome of the external process (its
raw stdout, or the exception the subprocess call raised).  Everything
inside the `try` is modelled: `_execute_command` strips the captured
stdout, `_compare_output` judges it, and the `except Exception` arm turns
any exception — from execution or from regex compilation — into a failed
`TestResult` carrying `str(e)` and an empty `actual_output`. -/
def runTest (outcome : Except ExecError String) (tc : TestCase) : TestResult :=
  match outcome with
  | .error e =>
    { test_case := tc, passed := false, actual_output := "",
      error_message := execErrorMessage e }
  | .ok stdout =>
    let actual_output := pyStrip stdout
    match compareOutput tc.expected_output actual_output tc.test_type with
    | .ok passed =>
      { test_case := tc, passed := passed, actual_output := actual_output,
        error_message := "" }
    | .error e =>
      { test_case := tc, passed := false, actual_output := "",
        error_message := reErrMessage e }

/-- `run_test` against an explicit model of the operating-system boundary:
`exec` maps the built command line to the raw outcome of
`subprocess.run`. -/
def runTestWith (exec : String → Except ExecError String)
    (command_template : String) (tc : TestCase) : TestResult :=
  runTest (exec (buildCommand command_template tc.input_data)) tc

/-! ## Helper lemmas -/

/-- Strings with equal character data are equal. -/
theorem string_data_ext {s t : String} (h : s.data = t.data) : s = t := by
  cases s
  cases t
  exact congrArg String.mk h

/-- A string with a non-empty left part is non-empty. -/
theorem append_ne_empty_of_left_pos {s : String} (t : String) (h : 0 < s.length) :
    s ++ t ≠ "" := by
  intro he
  have h2 := congrArg String.length he
  rw [String.length_append] at h2
  have h0 : ("" : String).length = 0 := rfl
  omega

/-- Every modelled `str(e)` of an execution failure is non-empty. -/
theorem execErrorMessage_ne_empty (e : ExecError) : execErrorMessage e ≠ "" := by
  cases e with
  | launchFailure errno strerror =>
    refine append_ne_empty_of_left_pos _ ?_
    simp only [String.length_append]
    have : 0 < ("[Errno " : String).length := by decide
    omega
  | timeout cmd seconds =>
    refine append_ne_empty_of_left_pos _ ?_
    simp only [String.length_append]
    have : 0 < ("Command " : String).length := by decide
    omega
  | decodeFailure detail =>
    refine append_ne_empty_of_left_pos _ ?_
    have : 0 < ("utf-8 codec cant decode " : String).length := by decide
    omega

/-- Every modelled `str(e)` of a pattern-compilation error is non-empty. -/
theorem reErrMessage_ne_empty (e : ReErr) : reErrMessage e ≠ "" := by
  cases e <;>
    · refine append_ne_empty_of_left_pos _ ?_
      decide

/-- `listStartsWith` decides `List.IsPrefix`. -/
theorem listStartsWith_isPrefix (p : List Char) :
    ∀ s, listStartsWith p s = true ↔ p <+: s := by
  induction p with
  | nil =>
    intro s
    simp [listStartsWith]
  | cons a ps ih =>
    intro s
    cases s with
    | nil => simp [listStartsWith]
    | cons c cs => simp [listStartsWith, List.cons_prefix_cons, ih]

/-- A prefix is an infix. -/
theorem infixOfPrefix {p l : List Char} (h : p <+: l) : p <:+: l := by
  obtain ⟨t, ht⟩ := h
  exact ⟨[], t, by simp [ht]⟩

/-- An infix of the tail is an infix. -/
theorem infixOfInfixTail {n : List Char} {c : Char} {cs : List Char}
    (h : n <:+: cs) : n <:+: c :: cs := by
  obtain ⟨s, t, hst⟩ := h
  exact ⟨c :: s, t, by simp [hst]⟩

/-- `listContainsSub` decides `List.IsInfix`. -/
theorem listContainsSub_isInfix (n : List Char) :
    ∀ h, listContainsSub n h = true ↔ n <:+: h := by
  intro h
  induction h with
  | nil => simp [listContainsSub, listStartsWith_isPrefix, List.prefix_nil, List.infix_nil]
  | cons c cs ih =>
    simp [listContainsSub, listStartsWith_isPrefix, ih, List.infix_cons_iff]

/-- The empty needle is contained in every haystack (Python `"" in s`). -/
theorem listContainsSub_nil (l : List Char) : listContainsSub [] l = true := by
  cases l <;> simp [listContainsSub, listStartsWith]

/-- A successful `startswith` exposes the suffix after the keyword. -/
theorem pyStartsWith_exists_suffix {s pre : String} (h : pyStartsWith s pre = true) :
    ∃ t, s.data = pre.data ++ t := by
  obtain ⟨t, ht⟩ := (listStartsWith_isPrefix pre.data s.data).mp h
  exact ⟨t, ht.symm⟩

/-- A list starts with itself followed by anything. -/
theorem listStartsWith_append_self (p m : List Char) :
    listStartsWith p (p ++ m) = true := by
  induction p with
  | nil => rfl
  | cons a ps ih => simp [listStartsWith, ih]

/-- `str.replace` passes over a stretch that cannot start a match of a
brace-led pattern, consuming matching fuel. -/
theorem pyReplaceFuel_not_brace_head (ps rep : List Char) (f : Nat) :
    ∀ (l m : List Char), ('{' : Char) ∉ l →
      pyReplaceFuel ('{' :: ps) rep (l.length + f) (l ++ m) =
        l ++ pyReplaceFuel ('{' :: ps) rep f m := by
  intro l
  induction l with
  | nil =>
    intro m _
    simp
  | cons c l' ih =>
    intro m hmem
    have hc : c ≠ '{' := by
      intro h
      exact hmem (h ▸ List.mem_cons_self c l')
    have hne : (('{' : Char) == c) = false := beq_eq_false_iff_ne.mpr (Ne.symm hc)
    have hsw : listStartsWith ('{' :: ps) (c :: (l' ++ m)) = false := by
      simp [listStartsWith, hne]
    have hfuel : (c :: l').length + f = (l'.length + f) + 1 := by
      simp [List.length_cons]
      omega
    rw [hfuel, List.cons_append]
    simp only [pyReplaceFuel, hsw, Bool.false_eq_true, if_false]
    rw [ih m (fun hm => hmem (List.mem_cons_of_mem c hm))]
    rfl

/-- `str.replace` substitutes at a position where the pattern occurs. -/
theorem pyReplaceFuel_at_pattern (ps rep m : List Char) (f : Nat) :
    pyReplaceFuel ('{' :: ps) rep (f + 1) (('{' :: ps) ++ m) =
      rep ++ pyReplaceFuel ('{' :: ps) rep f m := by
  have hsw : listStartsWith ('{' :: ps) ('{' :: (ps ++ m)) = true := by
    have := listStartsWith_append_self ('{' :: ps) m
    simpa using this
  rw [List.cons_append]
  simp only [pyReplaceFuel, hsw, if_true]
  congr 1
  simp [List.drop_left]

/-- `str.replace` leaves a pattern-free rest unchanged, at any fuel. -/
theorem pyReplaceFuel_no_occ (pat rep : List Char) :
    ∀ (f : Nat) (m : List Char), ¬ pat <:+: m → pyReplaceFuel pat rep f m = m := by
  intro f
  induction f with
  | zero =>
    intro m _
    rfl
  | succ f ih =>
    intro m hm
    cases m with
    | nil => rfl
    | cons c rest =>
      have hsw : listStartsWith pat (c :: rest) = false := by
        cases hb : listStartsWith pat (c :: rest)
        · rfl
        · exact absurd (infixOfPrefix ((listStartsWith_isPrefix pat _).mp hb)) hm
      have hrest : ¬ pat <:+: rest := fun hinf => hm (infixOfInfixTail hinf)
      simp only [pyReplaceFuel, hsw, Bool.false_eq_true, if_false]
      rw [ih rest hrest]

/-! ## Claim theorems -/

/-- C1: the claim says a section segment whose first line is empty after
trimming is skipped silently and yields no `TestCase`, so that every parsed
`TestCase` has a non-empty name.  The code disagrees: `str.split` never
returns an empty list, so the `if not lines: return None` guard never
fires, and a whitespace-only segment (here the one between the two
delimiters of `"### TEST:\n### TEST: ok"`) produces a `TestCase` whose
`name` is the empty string, alongside the ordinary one named `"ok"`. -/
theorem parse_file_keeps_empty_name_section :
    parseFileContent "### TEST:\n### TEST: ok" "math.test" =
      [{ name := "", description := "", input_data := "", expected_output := "",
         test_type := "exact", file_path := "math.test", line_number := 0,
         tags := [] },
       { name := "ok", description := "", input_data := "", expected_output := "",
         test_type := "exact", file_path := "math.test", line_number := 0,
         tags := [] }] := by
  rfl

/-- C2 (counterexample): the claim says an invalid `regex` pattern yields a
failed comparison with no `error_message`.  At the concrete invalid pattern
`"("` with captured output `"abc"`, `run_test` instead returns
`passed = false` together with a non-empty `error_message` (the `re.error`
text), so the claim as stated is false. -/
theorem regex_invalid_pattern_not_silent_failure :
    (runTest (.ok "abc")
        { name := "re case", description := "", input_data := "x",
          expected_output := "(", test_type := "regex" }).passed = false ∧
    (runTest (.ok "abc")
        { name := "re case", description := "", input_data := "x",
          expected_output := "(", test_type := "regex" }).error_message =
      "missing ), unterminated subpattern at position 0" ∧
    (runTest (.ok "abc")
        { name := "re case", description := "", input_data := "x",
          expected_output := "(", test_type := "regex" }).error_message ≠ "" := by
  refine ⟨rfl, rfl, ?_⟩
  decide

/-- C2 (amended): for every test case of type `regex` whose
`expected_output` fails to compile as a pattern, and any captured output,
`run_test` returns a `TestResult` with `passed = false`, empty
`actual_output`, and the non-empty `re.error` message in `error_message` —
the invalid pattern surfaces as an execution error, not as a silent
comparison failure. -/
theorem regex_invalid_pattern_surfaces_error_message
    (tc : TestCase) (stdout : String) (e : ReErr)
    (ht : tc.test_type = "regex")
    (he : reCompile (pyStrip tc.expected_output) = .error e) :
    runTest (.ok stdout) tc =
      { test_case := tc, passed := false, actual_output := "",
        error_message := reErrMessage e } ∧
    reErrMessage e ≠ "" := by
  refine ⟨?_, reErrMessage_ne_empty e⟩
  have hco : compareOutput tc.expected_output (pyStrip stdout) tc.test_type = .error e := by
    simp only [compareOutput, ht, he]
    rfl
  simp only [runTest, hco]

/-- C2 (witness): the amended theorem at the invalid pattern `"("`. -/
theorem regex_invalid_pattern_surfaces_error_message_witness :
    runTest (.ok "abc")
        { name := "re case", description := "", input_data := "",
          expected_output := "(", test_type := "regex" } =
      { test_case :=
          { name := "re case", description := "", input_data := "",
            expected_output := "(", test_type := "regex" },
        passed := false, actual_output := "",
        error_message := reErrMessage (ReErr.missingParen 0) } ∧
    reErrMessage (ReErr.missingParen 0) ≠ "" :=
  regex_invalid_pattern_surfaces_error_message _ "abc" (ReErr.missingParen 0) rfl rfl

/-- C3: for every test case and command template, `run_test` never raises
(the model is a total function); every failure of the execution itself —
launch error, timeout, decode failure — is captured into the returned
`TestResult` as `passed = false`, empty `actual_output`, and the non-empty
`str(e)` in `error_message`. -/
theorem run_captures_execution_failures
    (exec : String → Except ExecError String) (command_template : String)
    (tc : TestCase) (e : ExecError)
    (h : exec (buildCommand command_template tc.input_data) = .error e) :
    runTestWith exec command_template tc =
      { test_case := tc, passed := false, actual_output := "",
        error_message := execErrorMessage e } ∧
    execErrorMessage e ≠ "" := by
  refine ⟨?_, execErrorMessage_ne_empty e⟩
  unfold runTestWith
  rw [h]
  rfl

/-- C3 (witness): a timeout of the external command is captured. -/
theorem run_captures_execution_failures_witness :
    runTestWith (fun _ => .error (ExecError.timeout "sleep 99" 30)) "echo {input}"
        { name := "t", description := "", input_data := "x",
          expected_output := "x", test_type := "exact" } =
      { test_case :=
          { name := "t", description := "", input_data := "x",
            expected_output := "x", test_type := "exact" },
        passed := false, actual_output := "",
        error_message := execErrorMessage (ExecError.timeout "sleep 99" 30) } ∧
    execErrorMessage (ExecError.timeout "sleep 99" 30) ≠ "" :=
  run_captures_execution_failures _ _ _ _ rfl

/-- C4: a line that begins (after trimming) with `DESCRIPTION:`, `INPUT:`
or `EXPECTED:` atomically flushes the accumulated buffer into the field
owned by the previous state (`flushBlock`), switches state to the
introduced field, and seeds the new buffer with the trailing text after the
keyword (empty trailing text seeds an empty buffer); in particular the
single line `INPUT: 2 + 2` yields `input_data = "2 + 2"` with no following
line. -/
theorem keyword_line_flush_switch_seed (acc : SectionAcc) (line : String) :
    (pyStartsWith (pyStrip line) "DESCRIPTION:" = true →
      processLine acc line =
        { (flushBlock acc) with
          current_block := some Field.description,
          block_content :=
            if pyStrip (pyDrop (pyStrip line) 12) ≠ "" then
              [pyStrip (pyDrop (pyStrip line) 12)]
            else [] }) ∧
    (pyStartsWith (pyStrip line) "INPUT:" = true →
      processLine acc line =
        { (flushBlock acc) with
          current_block := some Field.input,
          block_content :=
            if pyStrip (pyDrop (pyStrip line) 6) ≠ "" then
              [pyStrip (pyDrop (pyStrip line) 6)]
            else [] }) ∧
    (pyStartsWith (pyStrip line) "EXPECTED:" = true →
      processLine acc line =
        { (flushBlock acc) with
          current_block := some Field.expected,
          block_content :=
            if pyStrip (pyDrop (pyStrip line) 9) ≠ "" then
              [pyStrip (pyDrop (pyStrip line) 9)]
            else [] }) ∧
    (parseTestSection "Add\nINPUT: 2 + 2" "f").map TestCase.input_data = some "2 + 2" := by
  refine ⟨?_, ?_, ?_, rfl⟩
  · intro h
    simp [processLine, h]
  · intro h
    obtain ⟨t, ht⟩ := pyStartsWith_exists_suffix h
    have hd : pyStartsWith (pyStrip line) "DESCRIPTION:" = false := by
      unfold pyStartsWith
      rw [ht]
      rfl
    simp [processLine, hd, h]
  · intro h
    obtain ⟨t, ht⟩ := pyStartsWith_exists_suffix h
    have hd : pyStartsWith (pyStrip line) "DESCRIPTION:" = false := by
      unfold pyStartsWith
      rw [ht]
      rfl
    have hi : pyStartsWith (pyStrip line) "INPUT:" = false := by
      unfold pyStartsWith
      rw [ht]
      rfl
    simp [processLine, hd, hi, h]

/-- C4 (witness): the keyword equation at the concrete line
`"INPUT: 2 + 2"` on the initial parser state. -/
theorem keyword_line_flush_switch_seed_witness :
    processLine initAcc "INPUT: 2 + 2" =
      { initAcc with
        current_block := some Field.input,
        block_content := ["2 + 2"] } :=
  (keyword_line_flush_switch_seed initAcc "INPUT: 2 + 2").2.1 rfl

/-- C5: the `json` comparator succeeds exactly when both (trimmed) sides
parse and the parsed values are equal under Python `==` (deep structural
equality; key order irrelevant for objects, order significant for arrays);
a parse failure on either side gives `.ok false` — a failed comparison, not
an error; and the two canonical examples from the specification hold. -/
theorem json_mode_deep_structural_equality (expected actual : String) :
    (compareOutput expected actual "json" = .ok true ↔
      ∃ ej aj, jsonLoads (pyStrip expected) = some ej ∧
        jsonLoads (pyStrip actual) = some aj ∧ pyJsonEq ej aj = true) ∧
    ((jsonLoads (pyStrip expected) = none ∨ jsonLoads (pyStrip actual) = none) →
      compareOutput expected actual "json" = .ok false) ∧
    compareOutput "\x7b\"a\":1,\"b\":2\x7d" "\x7b\"b\":2,\"a\":1\x7d" "json" = .ok true ∧
    compareOutput "[1,2]" "[2,1]" "json" = .ok false := by
  refine ⟨?_, ?_, rfl, rfl⟩
  · simp only [compareOutput]
    rw [if_pos trivial]
    cases he : jsonLoads (pyStrip expected) <;> cases ha : jsonLoads (pyStrip actual) <;>
      simp [he, ha]
  · intro h
    simp only [compareOutput]
    rw [if_pos trivial]
    rcases h with h | h
    · rw [h]
      cases jsonLoads (pyStrip actual) <;> rfl
    · rw [h]
      cases jsonLoads (pyStrip expected) <;> rfl

/-- C5 (witness): a side that fails to parse compares as `false`. -/
theorem json_mode_deep_structural_equality_witness :
    compareOutput "\x7boops" "1" "json" = .ok false :=
  (json_mode_deep_structural_equality "\x7boops" "1").2.1 (Or.inl rfl)

/-- C6: the `contains` comparator succeeds exactly when the trimmed
`expected` is a substring of the trimmed `actual` (direction
expected-in-actual), and the empty `expected` is contained in every
`actual`. -/
theorem contains_mode_substring_direction (expected actual : String) :
    (compareOutput expected actual "contains" = .ok true ↔
      (pyStrip expected).data <:+: (pyStrip actual).data) ∧
    compareOutput "" actual "contains" = .ok true := by
  constructor
  · simp only [compareOutput]
    rw [if_pos trivial]
    simp [pyInStr, listContainsSub_isInfix]
  · simp only [compareOutput]
    rw [if_pos trivial]
    have : pyStrip "" = "" := rfl
    rw [this]
    simp [pyInStr, listContainsSub_nil]

/-- C7: every mode string other than `exact`, `contains`, `regex`, `json`
behaves identically to `exact`: trimmed string equality. -/
theorem unknown_mode_behaves_as_exact (mode expected actual : String)
    (h1 : mode ≠ "exact") (h2 : mode ≠ "contains")
    (h3 : mode ≠ "regex") (h4 : mode ≠ "json") :
    compareOutput expected actual mode = compareOutput expected actual "exact" := by
  unfold compareOutput
  rw [if_neg h1, if_neg h2, if_neg h3, if_neg h4, if_pos rfl]

/-- C7 (witness): the unrecognized mode `"fuzzy"`. -/
theorem unknown_mode_behaves_as_exact_witness :
    compareOutput "x" "y" "fuzzy" = compareOutput "x" "y" "exact" :=
  unknown_mode_behaves_as_exact "fuzzy" "x" "y"
    (by decide) (by decide) (by decide) (by decide)

/-- C8: the command line executed by the runner is the template with the
`{input}` placeholder replaced by the input value, every embedded
double-quote character doubled and the whole value wrapped in double
quotes; the last two conjuncts characterize the escaping character by
character. -/
theorem command_substitution_quotes_input (t1 t2 input_data : String)
    (h1 : ('{' : Char) ∉ t1.data) (h2 : ¬ ("{input}".data <:+: t2.data)) :
    buildCommand (t1 ++ "{input}" ++ t2) input_data =
      t1 ++ "\"" ++ pyReplace input_data "\"" "\"\"" ++ "\"" ++ t2 ∧
    (∀ cs : List Char,
      pyReplace ⟨'"' :: cs⟩ "\"" "\"\"" = "\"\"" ++ pyReplace ⟨cs⟩ "\"" "\"\"") ∧
    (∀ (c : Char) (cs : List Char), c ≠ '"' →
      pyReplace ⟨c :: cs⟩ "\"" "\"\"" = ⟨c :: (pyReplace ⟨cs⟩ "\"" "\"\"").data⟩) := by
  refine ⟨?_, fun cs => rfl, ?_⟩
  · apply string_data_ext
    have h7 : ("{input}".data).length = 7 := rfl
    have hpat : "{input}".data = '{' :: "input\x7d".data := rfl
    have hdata : (t1 ++ "{input}" ++ t2).data = t1.data ++ ("{input}".data ++ t2.data) := by
      simp [String.data_append, List.append_assoc]
    simp only [buildCommand, pyReplace]
    rw [hdata]
    have hlen : (t1.data ++ ("{input}".data ++ t2.data)).length =
        t1.data.length + (t2.data.length + 6 + 1) := by
      simp [List.length_append, h7]
    rw [hlen, hpat]
    rw [pyReplaceFuel_not_brace_head "input\x7d".data _ _ t1.data _ h1]
    rw [pyReplaceFuel_at_pattern]
    rw [pyReplaceFuel_no_occ ('{' :: "input\x7d".data) _ _ t2.data (hpat ▸ h2)]
    simp [String.data_append, List.append_assoc]
  · intro c cs h
    have hne : (('"' : Char) == c) = false := beq_eq_false_iff_ne.mpr (Ne.symm h)
    apply string_data_ext
    simp only [pyReplace]
    have hsw : listStartsWith "\"".data (c :: cs) = false := by
      simp [listStartsWith, hne]
    have hl : (⟨c :: cs⟩ : String).data.length = cs.length + 1 := by
      simp
    rw [hl]
    simp only [pyReplaceFuel, hsw, Bool.false_eq_true, if_false]

/-- C8 (witness): the default template `echo {input}` with a quoted
input. -/
theorem command_substitution_quotes_input_witness :
    buildCommand ("echo " ++ "{input}" ++ "") "say \"hi\"" =
      "echo " ++ "\"" ++ pyReplace "say \"hi\"" "\"" "\"\"" ++ "\"" ++ "" :=
  (command_substitution_quotes_input "echo " "" "say \"hi\""
    (by decide) (by decide)).1

/-- C9: every `TestResult` of `run_test` is explained by exactly one cause:
a non-empty `error_message` forces `passed = false`, and a failure with an
empty `error_message` can only come from the comparator returning `false`
on the case's expected output versus the (stripped) captured output under
its `test_type`. -/
theorem failure_always_explained (outcome : Except ExecError String) (tc : TestCase) :
    ((runTest outcome tc).error_message ≠ "" → (runTest outcome tc).passed = false) ∧
    ((runTest outcome tc).passed = false → (runTest outcome tc).error_message = "" →
      ∃ out, outcome = .ok out ∧
        compareOutput tc.expected_output (pyStrip out) tc.test_type = .ok false) := by
  cases outcome with
  | error e =>
    exact ⟨fun _ => rfl, fun _ he => absurd he (execErrorMessage_ne_empty e)⟩
  | ok out =>
    cases hc : compareOutput tc.expected_output (pyStrip out) tc.test_type with
    | error m =>
      constructor
      · intro _
        simp only [runTest, hc]
      · intro _ he
        simp only [runTest, hc] at he
        exact absurd he (reErrMessage_ne_empty m)
    | ok b =>
      constructor
      · intro hne
        exfalso
        apply hne
        simp only [runTest, hc]
      · intro hp _
        refine ⟨out, rfl, ?_⟩
        simp only [runTest, hc] at hp
        rw [hc, hp]

/-- C9 (witness): the failed exact comparison `"4"` versus `"5"` is
explained by the comparator. -/
theorem failure_always_explained_witness :
    ∃ out, (Except.ok "5" : Except ExecError String) = .ok out ∧
      compareOutput "4" (pyStrip out) "exact" = .ok false :=
  (failure_always_explained (.ok "5")
      { name := "t", description := "", input_data := "2 + 2",
        expected_output := "4", test_type := "exact" }).2 rfl rfl

/-- C10: a `TAGS:` line with an empty remainder yields the one-element tag
list containing the empty string (never the empty list), and empty entries
between commas are kept as empty-string tags after trimming. -/
theorem tags_empty_remainder_kept :
    (∀ acc line, pyStrip line = "TAGS:" → (processLine acc line).tags = [""]) ∧
    (parseTestSection "t\nTAGS:" "f").map TestCase.tags = some [""] ∧
    (parseTestSection "t\nTAGS: a,,b" "f").map TestCase.tags = some ["a", "", "b"] := by
  refine ⟨?_, rfl, rfl⟩
  intro acc line h
  simp only [processLine, h]
  rfl

/-- C10 (witness): the general part at the concrete line `"  TAGS:"`. -/
theorem tags_empty_remainder_kept_witness :
    (processLine initAcc "  TAGS:").tags = [""] :=
  tags_empty_remainder_kept.1 initAcc "  TAGS:" rfl

end FileTest
